import Mathlib

/-!
Verification of the streaming agent-response pipeline of the equity-bot
backend.  Python strings are modelled as `List Char`; each definition below
is a shallow embedding of the corresponding function of the source
(`app/api/v1/services/main_agent.py`, `app/api/v1/endpoints/api.py`,
`app/tools/web_search.py`, `app/tools/document_search.py`,
`app/api/v1/services/qdrant_utils.py`, `app/models/models.py`).
-/

namespace EquityBot

/-- Python strings are sequences of characters. -/
abbrev Str := List Char

/-- The whitespace characters stripped by Python `str.lstrip()` / `str.strip()`. -/
def isPySpace (c : Char) : Bool :=
  c = ' ' || c = '\t' || c = '\n' || c = '\r' || c = '\x0b' || c = '\x0c'

/-- Python `s.lstrip()`. -/
def lstrip (s : Str) : Str := s.dropWhile isPySpace

/-- Truthiness of Python `s.strip()`: `s` holds at least one non-space character. -/
def hasNonSpace (s : Str) : Bool := s.any (fun c => !isPySpace c)

/-- Python `pre in s` restricted to what the source uses (`startswith`).
`startsWith pre s` is true when `pre` is a prefix of `s`. -/
def startsWith (pre s : Str) : Bool := pre.isPrefixOf s

/-- Python `s.replace(pat, rep)`: replace every non-overlapping occurrence of
`pat` in `s` by `rep`, scanning left to right.  (The source only calls it
with non-empty patterns; an empty pattern is treated as matching nowhere.) -/
def replaceAll (pat rep : Str) : Str → Str
  | [] => []
  | c :: rest =>
    if pat ≠ [] ∧ pat.isPrefixOf (c :: rest) then
      rep ++ replaceAll pat rep (rest.drop (pat.length - 1))
    else
      c :: replaceAll pat rep rest
termination_by s => s.length
decreasing_by
  · simp only [List.length_cons]
    have : (rest.drop (pat.length - 1)).length ≤ rest.length := by
      simp [List.length_drop]
    omega
  · simp

/-- `main_agent.py` line 226: the pre-boundary buffer is released once it has
at least 15 characters or contains a sentence terminator. -/
def preTrigger (s : Str) : Bool :=
  decide (15 ≤ s.length) || s.contains '.' || s.contains '!' || s.contains '?'

/-- `main_agent.py` line 269: the boundary characters
`(' ', '.', '!', '?', '\n', ',', ':', '-', ';')` of `buffer.endswith`. -/
def boundaryChar (c : Char) : Bool :=
  c = ' ' || c = '.' || c = '!' || c = '?' || c = '\n' ||
  c = ',' || c = ':' || c = '-' || c = ';'

/-- Python `buffer.endswith((' ', '.', ...))` for one-character alternatives:
the buffer is non-empty and its last character is a boundary character. -/
def endsWithBoundary (s : Str) : Bool :=
  match s.getLast? with
  | some c => boundaryChar c
  | none => false

/-- `main_agent.py` lines 228-252: the ordered first-match-wins prefix-repair
table applied to the pre-boundary buffer. -/
def repairPrefix (b : Str) : Str :=
  if startsWith (" apologize").toList b || startsWith ("apologize").toList b then
    ("I ").toList ++ lstrip b
  else if startsWith (" am").toList b || startsWith ("am ").toList b then
    'I' :: b
  else if startsWith ("'d ").toList b || startsWith ("d ").toList b then
    'I' :: replaceAll ("d ").toList ("'d ").toList b
  else if startsWith ("'ll ").toList b || startsWith ("ll ").toList b then
    'I' :: replaceAll ("ll ").toList ("'ll ").toList b
  else if startsWith ("'m ").toList b || startsWith ("m ").toList b then
    'I' :: replaceAll ("m ").toList ("'m ").toList b
  else if startsWith (" can").toList b || startsWith ("can ").toList b then
    'I' :: b
  else if startsWith (" will").toList b || startsWith ("will ").toList b then
    'I' :: b
  else if startsWith ("he ").toList b && decide (b.length < 25) then
    'T' :: b
  else if startsWith ("et ").toList b && decide (b.length < 25) then
    'L' :: b
  else if hasNonSpace b && startsWith (" ").toList b && decide (b.length < 25) then
    'I' :: b
  else
    b

/-- True when some row of the repair table fires on `b` (the disjunction of
all the guards of `repairPrefix`). -/
def anyRepairTrigger (b : Str) : Bool :=
  (startsWith (" apologize").toList b || startsWith ("apologize").toList b) ||
  (startsWith (" am").toList b || startsWith ("am ").toList b) ||
  (startsWith ("'d ").toList b || startsWith ("d ").toList b) ||
  (startsWith ("'ll ").toList b || startsWith ("ll ").toList b) ||
  (startsWith ("'m ").toList b || startsWith ("m ").toList b) ||
  (startsWith (" can").toList b || startsWith ("can ").toList b) ||
  (startsWith (" will").toList b || startsWith ("will ").toList b) ||
  (startsWith ("he ").toList b && decide (b.length < 25)) ||
  (startsWith ("et ").toList b && decide (b.length < 25)) ||
  (hasNonSpace b && startsWith (" ").toList b && decide (b.length < 25))

/-- The per-turn mutable state of `run_agent_with_streaming`
(`main_agent.py` lines 186-188 and 212): `first_response_started`,
`initial_buffer` and `buffer`. -/
structure ReState where
  firstStarted : Bool
  initialBuffer : Str
  buffer : Str
deriving DecidableEq, Repr

/-- The initial reassembler state. -/
def initReState : ReState := ⟨false, [], []⟩

/-- Handling of one `TextPartDelta` fragment (`main_agent.py` lines 216-276):
returns the next state and the list of deltas yielded for this fragment. -/
def processFragment (st : ReState) (content : Str) : ReState × List Str :=
  if st.firstStarted = false then
    let ib := st.initialBuffer ++ content
    if preTrigger ib then
      let ib' := repairPrefix ib
      (⟨true, [], st.buffer⟩, [ib'])
    else
      (⟨false, ib, st.buffer⟩, [])
  else
    let b := st.buffer ++ content
    if endsWithBoundary b then
      (⟨true, st.initialBuffer, []⟩, [b])
    else
      (⟨true, st.initialBuffer, b⟩, [])

/-- Folding `processFragment` over a fragment stream, collecting yields. -/
def reassembleSteps (st : ReState) : List Str → List Str × ReState
  | [] => ([], st)
  | f :: fs =>
    let (st', ds) := processFragment st f
    let (rest, stFin) := reassembleSteps st' fs
    (ds ++ rest, stFin)

/-- The end-of-turn handling (`main_agent.py` lines 278-295): flush the
post-boundary `buffer` if non-empty, then yield the terminal empty delta. -/
def atEnd (st : ReState) : List Str :=
  (if st.buffer ≠ [] then [st.buffer] else []) ++ [[]]

/-- The delta reassembler: the sequence of deltas `run_agent_with_streaming`
yields for a raw fragment stream followed by the end-of-turn node. -/
def reassemble (frags : List Str) : List Str :=
  let (ds, st) := reassembleSteps initReState frags
  ds ++ atEnd st

/-! ## The spec's single-buffer reassembler (§4.2), with the end-of-turn
flush restricted to the post-boundary phase -/

/-- The Delta Reassembler state of spec §4.2: one `pending_buffer` and the
`boundary_reached` flag. -/
structure SpecState where
  pending : Str
  boundaryReached : Bool
deriving DecidableEq, Repr

/-- One fragment of the spec §4.2 algorithm: append to `pending_buffer`;
before the boundary, emit the repaired buffer exactly when it reaches 15
characters or contains a sentence terminator; after the boundary, emit the
buffer exactly when it ends in a boundary character. -/
def specStep (st : SpecState) (frag : Str) : SpecState × List Str :=
  let p := st.pending ++ frag
  if st.boundaryReached = false then
    if preTrigger p then (⟨[], true⟩, [repairPrefix p]) else (⟨p, false⟩, [])
  else
    if endsWithBoundary p then (⟨[], true⟩, [p]) else (⟨p, true⟩, [])

/-- Folding `specStep` over the fragment stream. -/
def specSteps (st : SpecState) : List Str → List Str × SpecState
  | [] => ([], st)
  | f :: fs =>
    let (st', ds) := specStep st f
    let (rest, fin) := specSteps st' fs
    (ds ++ rest, fin)

/-- End-of-turn in the single-buffer model: the pending buffer is flushed
only when the boundary was reached (the pre-boundary buffer of a response
that never triggered is discarded); then the terminal empty delta. -/
def specEnd (st : SpecState) : List Str :=
  (if st.boundaryReached = true ∧ st.pending ≠ [] then [st.pending] else []) ++ [[]]

/-- The spec §4.2 reassembler with the post-boundary-only flush. -/
def reassembleAmended (frags : List Str) : List Str :=
  let (ds, st) := specSteps ⟨[], false⟩ frags
  ds ++ specEnd st

/-- Concatenation of a list of strings, in order. -/
def concatStr : List Str → Str
  | [] => []
  | s :: rest => s ++ concatStr rest

/-- Correspondence between the source's two-buffer state and the spec's
single-buffer state: the flag agrees, the spec's pending buffer is whichever
of the two buffers the current phase uses, and before the boundary the
post-boundary buffer is still empty. -/
def SimRel (c : ReState) (s : SpecState) : Prop :=
  s.boundaryReached = c.firstStarted ∧
  s.pending = (if c.firstStarted then c.buffer else c.initialBuffer) ∧
  (c.firstStarted = false → c.buffer = [])

/-! ## Wire events and the streaming session controller (`api.py`) -/

/-- The wire-level stream events (`StreamResponse.type` values of `api.py`). -/
inductive StreamEvent
  | threadId (id : Str)
  | content (s : Str)
  | done
  | error (msg : Str)
deriving DecidableEq, Repr

/-- The strings carried by the `content` events of a stream, in order. -/
def contentsOf : List StreamEvent → List Str
  | [] => []
  | StreamEvent.content s :: rest => s :: contentsOf rest
  | StreamEvent.threadId _ :: rest => contentsOf rest
  | StreamEvent.done :: rest => contentsOf rest
  | StreamEvent.error _ :: rest => contentsOf rest

/-- The loop body of `generate_events` (`api.py` lines 102-115) over the
deltas produced by the reassembler: a non-empty delta is accumulated into
`full_response` and forwarded as a `content` event; an empty delta writes
`full_response` into the message record and emits `done`.  `saved` is the
message's `agent_response` field, created as the empty string (line 87).
Returns the emitted events and the final persisted `agent_response`. -/
def genLoop (full saved : Str) : List Str → List StreamEvent × Str
  | [] => ([], saved)
  | d :: ds =>
    if d ≠ [] then
      let (evs, s) := genLoop (full ++ d) saved ds
      (StreamEvent.content d :: evs, s)
    else
      let (evs, s) := genLoop full full ds
      (StreamEvent.done :: evs, s)

/-- `generate_events` without a mid-stream exception: the `thread_id` event
first (line 99-100), then the delta loop. -/
def generateEvents (tid : Str) (deltas : List Str) : List StreamEvent × Str :=
  let (evs, s) := genLoop [] [] deltas
  (StreamEvent.threadId tid :: evs, s)

/-- `generate_events` when an exception is raised while awaiting or handling
the `failAt`-th delta (`api.py` lines 117-122): the events emitted so far are
followed by an `error` event and a `done` event; the message record is left
with whatever was last saved. -/
def generateEventsFail (tid : Str) (deltas : List Str) (failAt : Nat)
    (msg : Str) : List StreamEvent × Str :=
  let (evs, s) := genLoop [] [] (deltas.take failAt)
  (StreamEvent.threadId tid :: evs ++ [StreamEvent.error msg, StreamEvent.done], s)

/-- One run of `generate_events`: `failAt = none` is a run with no exception,
`failAt = some k` a run where an exception is raised at the `k`-th delta. -/
def generateEventsRun (tid : Str) (deltas : List Str) (failAt : Option Nat)
    (msg : Str) : List StreamEvent × Str :=
  match failAt with
  | none => generateEvents tid deltas
  | some k => generateEventsFail tid deltas k msg

/-- The conversation store visible to `stream_agent_response`: the user ids
that resolve, and the (thread id, owner id) pairs of existing threads. -/
structure Db where
  users : List Str
  threads : List (Str × Str)
deriving DecidableEq

/-- Result of a `/chat` turn request: either an HTTP error response (no
stream was produced) or an event stream plus the persisted response. -/
inductive ChatResult
  | httpError (status : Nat) (detail : Str)
  | stream (events : List StreamEvent) (savedResponse : Str)
deriving DecidableEq

/-- `stream_agent_response` (`api.py` lines 49-130).  The user lookup and the
thread lookup happen before `generate_events` is created; an
`HTTPException(404)` raised there is caught by the outer handler (lines
129-130) and re-raised as `HTTPException(500, str(e))`, so no event stream is
produced on those paths.  `newThreadId` is the id of the thread created when
no thread id is supplied; `frags`/`failAt`/`msg` parametrise the agent run as
in `generateEventsRun`. -/
def streamAgentResponse (db : Db) (userId : Str) (threadId? : Option Str)
    (newThreadId : Str) (frags : List Str) (failAt : Option Nat)
    (msg : Str) : ChatResult :=
  if db.users.contains userId = false then
    ChatResult.httpError 500 ("User not found").toList
  else
    match threadId? with
    | some t =>
      if db.threads.contains (t, userId) then
        let (evs, saved) := generateEventsRun t (reassemble frags) failAt msg
        ChatResult.stream evs saved
      else
        ChatResult.httpError 500 ("Thread not found").toList
    | none =>
      let (evs, saved) := generateEventsRun newThreadId (reassemble frags) failAt msg
      ChatResult.stream evs saved

/-! ## Agent configuration (`main_agent.py`, `create_agent`) -/

/-- The tools the agent can be configured with. -/
inductive ToolName
  | webSearch
  | qdrantSearch
deriving DecidableEq, Repr

/-- An agent configuration: system prompt and toolset. -/
structure AgentConfig where
  systemPrompt : Str
  tools : List ToolName
deriving DecidableEq

/-- The web-search system prompt (`main_agent.py` lines 59-69).  In this and
the two prompts below, the 16-space indentation that the Python triple-quoted
literals carry on every line is elided; no claim depends on the prompt's
whitespace. -/
def webSearchSystemPrompt : Str :=
  (" \nYou are an expert financial analyst. You are given a question regarding financial data,\nyou need to use the web search tool, write good web queries and find the data, and return it in a structured format.\n\nWhen responding to queries, consider the conversation history provided to maintain context.\nIf previous messages contain relevant information, use it to provide more accurate and contextual responses.\nHowever, ensure each response can stand on its own while being contextually aware.\n\nYou can't ask for clarifications, you need to understand the question and answer it yourself.\nPlease cite the website source of the information you provide.\n").toList

/-- The document-search system prompt (`main_agent.py` lines 72-87), before
the optional user-id instruction. -/
def documentSystemPromptBase : Str :=
  ("\nYou are an expert financial analyst engaging in a conversation about financial topics.\nYour role is to provide clear, accurate, and helpful responses based on your existing knowledge.\n\nWhen responding to queries, consider the conversation history provided to maintain context.\nIf previous messages contain relevant information, use it to provide more accurate and contextual responses.\nHowever, ensure each response can stand on its own while being contextually aware.\n\nYou can't ask for clarifications, you need to understand the question and answer it yourself.\nNote that you don't have access to real-time data or web search, so focus on providing general financial analysis,\nexplanations, and insights based on your training data.\n\nYou can use the qdrant search tool to search for information in the documents, that the user has uploaded\ngive clarifications from the document itself, dont give your own interpretations. only answer from the document.\nplease cite the page number from where you got the information.\n").toList

/-- The plain-chat system prompt (`main_agent.py` lines 96-99). -/
def plainSystemPrompt : Str :=
  ("\nYou are an expert financial analyst engaging in a conversation about financial topics.\nYour role is to provide clear, accurate, and helpful responses based on your existing knowledge.\n").toList

/-- The instruction appended to the document prompt when `document_user_id`
is given (`main_agent.py` lines 93-94). -/
def scopeInstruction (uid : Str) : Str :=
  ("\n\nWhen using the qdrant_search_tool, always pass the user_id parameter with the value '").toList
    ++ uid ++ ("'.").toList

/-- `create_agent(web_search, document_search, document_user_id)`
(`main_agent.py` lines 39-109): prompt and toolset selected by mode; in
document-search mode the user-id instruction is appended only when
`document_user_id` is truthy. -/
def createAgent (webSearch docSearch : Bool) (documentUserId : Option Str) : AgentConfig :=
  if webSearch then
    ⟨webSearchSystemPrompt, [ToolName.webSearch]⟩
  else if docSearch then
    ⟨documentSystemPromptBase ++
      (match documentUserId with
       | some uid => if uid ≠ [] then scopeInstruction uid else []
       | none => []),
     [ToolName.qdrantSearch]⟩
  else
    ⟨plainSystemPrompt, []⟩

/-- The call `create_agent(web_search, document_search=use_document_search)`
performed by `stream_agent_response` (`api.py` line 53): no
`document_user_id` argument is passed. -/
def chatPathAgent (webSearch useDocSearch : Bool) : AgentConfig :=
  createAgent webSearch useDocSearch none

/-! ## Vector store and document search
(`qdrant_utils.py`, `models.py`, `document_search.py`) -/

/-- A point stored in the Qdrant collection: the payload written by
`write_to_qdrant` (`qdrant_utils.py` lines 60-84) holds `object_id`, the
`chunk` text, and the `user_id`/`file_name` metadata of `models.py` line 97. -/
structure QPoint where
  objectId : Str
  chunk : Str
  userId : Str
  fileName : Str
deriving DecidableEq, Repr

/-- Payload lookup by field name, as a `FieldCondition` reads it. -/
def payloadGet (p : QPoint) (key : Str) : Option Str :=
  if key = ("user_id").toList then some p.userId
  else if key = ("object_id").toList then some p.objectId
  else if key = ("file_name").toList then some p.fileName
  else if key = ("chunk").toList then some p.chunk
  else none

/-- A point matches a `Filter(must=...)` when every condition matches. -/
def matchesConditions (conds : List (Str × Str)) (p : QPoint) : Bool :=
  conds.all (fun kv => payloadGet p kv.1 = some kv.2)

/-- The external `qdrant_client.search` call: the collection is taken in
similarity-rank order for the query vector (nearest-neighbor ranking is the
black-box service's concern, §1 of the spec); a filtered search returns the
top `limit` points matching every condition, an unfiltered one the top
`limit` points of the whole collection. -/
def qdrantClientSearch (collection : List QPoint)
    (qfilter : Option (List (Str × Str))) (limit : Nat) : List QPoint :=
  match qfilter with
  | some conds => (collection.filter (matchesConditions conds)).take limit
  | none => collection.take limit

/-- The Python `filters` argument: a dict, or a value of some other type. -/
inductive FilterArg
  | dict (entries : List (Str × Str))
  | notDict
deriving DecidableEq

/-- `search_qdrant_with_filters` (`qdrant_utils.py` lines 98-148): a non-dict
filter argument is dropped (lines 103-105); a falsy (absent or empty) dict
falls through to the unfiltered search (lines 107, 136-145); a non-empty dict
becomes `must` conditions for the filtered search (lines 107-134). -/
def searchQdrantWithFilters (collection : List QPoint) (filters : Option FilterArg)
    (limit : Nat) : List QPoint :=
  let entries : Option (List (Str × Str)) :=
    match filters with
    | some (FilterArg.dict es) => if es = [] then none else some es
    | some FilterArg.notDict => none
    | none => none
  match entries with
  | some es => qdrantClientSearch collection (some es) limit
  | none => qdrantClientSearch collection none limit

/-- Insertion into a Python dict: an existing key keeps its position and gets
the new value, a new key is appended. -/
def dictInsert (m : List (Str × Str)) (k v : Str) : List (Str × Str) :=
  if m.any (fun kv => kv.1 = k) then
    m.map (fun kv => if kv.1 = k then (k, v) else kv)
  else
    m ++ [(k, v)]

/-- The dict comprehension of `CustomDocument.search` (`models.py` lines
155-159): keyed by `object_id`, value the `chunk`, skipping results with a
falsy `object_id` or `chunk`. -/
def buildResultDict (rs : List QPoint) : List (Str × Str) :=
  rs.foldl
    (fun m r =>
      if r.objectId ≠ [] ∧ r.chunk ≠ [] then dictInsert m r.objectId r.chunk else m)
    []

/-- `CustomDocument.search` (`models.py` lines 128-167): the filtered vector
search followed by the dict build.  (Vector generation for the query is
external and folded into the rank order of `collection`.) -/
def customDocumentSearch (collection : List QPoint) (filters : Option FilterArg)
    (limit : Nat) : List (Str × Str) :=
  buildResultDict (searchQdrantWithFilters collection filters limit)

/-- The response of the document-search tool: the `text` fields of the
results and `total_results`. -/
structure QdrantSearchResponse where
  results : List Str
  totalResults : Nat
deriving DecidableEq, Repr

/-- The filter the tool builds (`document_search.py` line 48):
`{"user_id": user_id} if user_id else None`.  `none` models a missing
`user_id`, `some []` an empty string; both are falsy. -/
def qdrantToolFilters (userId : Option Str) : Option FilterArg :=
  match userId with
  | some uid => if uid ≠ [] then some (FilterArg.dict [(("user_id").toList, uid)]) else none
  | none => none

/-- `qdrant_search_tool` (`document_search.py` lines 22-67): on any internal
error the `except` branch returns an empty result set (lines 64-67);
otherwise the results are the chunk texts of `CustomDocument.search`'s dict
values, with `total_results` their count. -/
def qdrantSearchTool (collection : List QPoint) (numResults : Nat)
    (userId : Option Str) (internalError : Bool) : QdrantSearchResponse :=
  if internalError then
    ⟨[], 0⟩
  else
    let texts := (customDocumentSearch collection (qdrantToolFilters userId) numResults).map
      (fun kv => kv.2)
    ⟨texts, texts.length⟩

/-! ## Web search tool (`web_search.py`) -/

/-- One web search result. -/
structure WebResult where
  title : Str
  link : Str
  snippet : Str
deriving DecidableEq, Repr

/-- The response of the web-search tool. -/
structure WebSearchResponse where
  results : List WebResult
  totalResults : Nat
deriving DecidableEq, Repr

/-- Outcome of the HTTP call to the search API: a response with a status
code and parsed results, or an exception (timeout, network error, bad
JSON). -/
inductive HttpOutcome
  | ok (status : Nat) (results : List WebResult)
  | exn
deriving DecidableEq

/-- The two hardcoded placeholder results of the `except` branch
(`web_search.py` lines 84-95). -/
def webMockResults : List WebResult :=
  [⟨("Mock search result 1").toList, ("https://example.com/result1").toList,
    ("This is a mock search result for demonstration purposes.").toList⟩,
   ⟨("Mock search result 2").toList, ("https://example.com/result2").toList,
    ("Another mock result since the actual API call failed.").toList⟩]

/-- The message of the `ValueError` raised when the API key is absent
(`web_search.py` line 43). -/
def searchKeyErrorMsg : Str :=
  ("Search API key not configured. Please set the SEARCH_API_KEY environment variable.").toList

/-- `web_search_tool` (`web_search.py` lines 22-96).  The missing-key check
(lines 40-43) raises BEFORE the `try` block, so that `ValueError`
propagates (`Except.error`).  Inside the `try`, a non-200 status raises and
is caught by the tool's own `except`, which returns the two mock results;
so does any exception from the HTTP call.  A 200 response yields the parsed
results with `total_results` set to the requested count (line 78). -/
def webSearchTool (apiKey : Option Str) (numResults : Nat)
    (http : HttpOutcome) : Except Str WebSearchResponse :=
  if apiKey = none ∨ apiKey = some [] then
    Except.error searchKeyErrorMsg
  else
    match http with
    | HttpOutcome.ok status rs =>
      if status = 200 then Except.ok ⟨rs, numResults⟩
      else Except.ok ⟨webMockResults, 2⟩
    | HttpOutcome.exn => Except.ok ⟨webMockResults, 2⟩


/-! ## Lemmas and claim theorems -/

theorem preTrigger_ne_nil {s : Str} (h : preTrigger s = true) : s ≠ [] := by
  rintro rfl
  exact absurd h (by decide)

theorem repairPrefix_ne_nil {b : Str} (hb : b ≠ []) : repairPrefix b ≠ [] := by
  rw [repairPrefix]
  by_cases h1 : (startsWith (" apologize").toList b || startsWith ("apologize").toList b) = true
  · rw [if_pos h1]; simp
  rw [if_neg h1]
  by_cases h2 : (startsWith (" am").toList b || startsWith ("am ").toList b) = true
  · rw [if_pos h2]; simp
  rw [if_neg h2]
  by_cases h3 : (startsWith ("'d ").toList b || startsWith ("d ").toList b) = true
  · rw [if_pos h3]; simp
  rw [if_neg h3]
  by_cases h4 : (startsWith ("'ll ").toList b || startsWith ("ll ").toList b) = true
  · rw [if_pos h4]; simp
  rw [if_neg h4]
  by_cases h5 : (startsWith ("'m ").toList b || startsWith ("m ").toList b) = true
  · rw [if_pos h5]; simp
  rw [if_neg h5]
  by_cases h6 : (startsWith (" can").toList b || startsWith ("can ").toList b) = true
  · rw [if_pos h6]; simp
  rw [if_neg h6]
  by_cases h7 : (startsWith (" will").toList b || startsWith ("will ").toList b) = true
  · rw [if_pos h7]; simp
  rw [if_neg h7]
  by_cases h8 : (startsWith ("he ").toList b && decide (b.length < 25)) = true
  · rw [if_pos h8]; simp
  rw [if_neg h8]
  by_cases h9 : (startsWith ("et ").toList b && decide (b.length < 25)) = true
  · rw [if_pos h9]; simp
  rw [if_neg h9]
  by_cases h10 : (hasNonSpace b && startsWith (" ").toList b && decide (b.length < 25)) = true
  · rw [if_pos h10]; simp
  rw [if_neg h10]
  exact hb

theorem endsWithBoundary_ne_nil {s : Str} (h : endsWithBoundary s = true) : s ≠ [] := by
  rintro rfl
  exact absurd h (by decide)

theorem processFragment_ne_nil (st : ReState) (f : Str) :
    ∀ d ∈ (processFragment st f).2, d ≠ [] := by
  intro d hd
  unfold processFragment at hd
  by_cases h1 : st.firstStarted = false
  · rw [if_pos h1] at hd
    by_cases h2 : preTrigger (st.initialBuffer ++ f) = true
    · rw [if_pos h2] at hd
      simp at hd
      subst hd
      exact repairPrefix_ne_nil (preTrigger_ne_nil h2)
    · rw [if_neg h2] at hd
      simp at hd
  · rw [if_neg h1] at hd
    by_cases h3 : endsWithBoundary (st.buffer ++ f) = true
    · rw [if_pos h3] at hd
      simp at hd
      subst hd
      exact endsWithBoundary_ne_nil h3
    · rw [if_neg h3] at hd
      simp at hd

theorem reassembleSteps_ne_nil : ∀ (frags : List Str) (st : ReState),
    ∀ d ∈ (reassembleSteps st frags).1, d ≠ []
  | [], st => by simp [reassembleSteps]
  | f :: fs, st => by
    intro d hd
    simp only [reassembleSteps] at hd
    rcases List.mem_append.1 hd with h | h
    · exact processFragment_ne_nil st f d h
    · exact reassembleSteps_ne_nil fs _ d h

theorem reassemble_terminal (frags : List Str) :
    ∃ body, reassemble frags = body ++ [([] : Str)] ∧ ∀ d ∈ body, d ≠ [] := by
  refine ⟨(reassembleSteps initReState frags).1 ++
    (if (reassembleSteps initReState frags).2.buffer ≠ [] then
      [(reassembleSteps initReState frags).2.buffer] else []), ?_, ?_⟩
  · simp only [reassemble, atEnd]
    rw [List.append_assoc]
  · intro d hd
    rcases List.mem_append.1 hd with h | h
    · exact reassembleSteps_ne_nil frags initReState d h
    · by_cases hb : (reassembleSteps initReState frags).2.buffer ≠ []
      · rw [if_pos hb] at h
        simp at h
        subst h
        exact hb
      · rw [if_neg hb] at h
        simp at h

theorem genLoop_terminal : ∀ (body : List Str) (full saved : Str),
    (∀ d ∈ body, d ≠ []) →
    genLoop full saved (body ++ [([] : Str)]) =
      (body.map StreamEvent.content ++ [StreamEvent.done], full ++ concatStr body)
  | [], full, saved, _ => by simp [genLoop, concatStr]
  | d :: ds, full, saved, h => by
    have hd : d ≠ [] := h d (by simp)
    have ih := genLoop_terminal ds (full ++ d) saved (fun x hx => h x (by simp [hx]))
    simp only [List.cons_append, genLoop, if_pos hd, List.append_eq]
    rw [ih]
    simp [concatStr, List.append_assoc]

theorem genLoop_no_terminal : ∀ (ds : List Str) (full saved : Str),
    (∀ d ∈ ds, d ≠ []) →
    genLoop full saved ds = (ds.map StreamEvent.content, saved)
  | [], full, saved, _ => by simp [genLoop]
  | d :: ds, full, saved, h => by
    have hd : d ≠ [] := h d (by simp)
    have ih := genLoop_no_terminal ds (full ++ d) saved (fun x hx => h x (by simp [hx]))
    simp only [List.map_cons, genLoop, if_pos hd]
    rw [ih]

theorem contentsOf_append (a b : List StreamEvent) :
    contentsOf (a ++ b) = contentsOf a ++ contentsOf b := by
  induction a with
  | nil => simp [contentsOf]
  | cons e rest ih => cases e <;> simp [contentsOf, ih]

theorem contentsOf_map_content (l : List Str) :
    contentsOf (l.map StreamEvent.content) = l := by
  induction l with
  | nil => simp [contentsOf]
  | cons s rest ih => simp [contentsOf, ih]

theorem generateEvents_success (frags : List Str) (tid : Str) :
    ∀ body, reassemble frags = body ++ [([] : Str)] → (∀ d ∈ body, d ≠ []) →
    generateEvents tid (reassemble frags) =
      (StreamEvent.threadId tid :: body.map StreamEvent.content ++ [StreamEvent.done],
       concatStr body) := by
  intro body hes hne
  simp only [generateEvents]
  rw [hes, genLoop_terminal body [] [] hne]
  simp

/-- C1: for a turn that completes successfully, the persisted response
equals the concatenation, in emission order, of the strings carried by all
`content` events. -/
theorem c1_response_roundtrip : ∀ (frags : List Str) (tid : Str),
    (generateEvents tid (reassemble frags)).2 =
      concatStr (contentsOf (generateEvents tid (reassemble frags)).1) := by
  intro frags tid
  obtain ⟨body, hes, hne⟩ := reassemble_terminal frags
  rw [generateEvents_success frags tid body hes hne]
  simp [contentsOf, contentsOf_append, contentsOf_map_content]

theorem take_of_lt_reassemble_length (frags : List Str) (k : Nat) (body : List Str)
    (hes : reassemble frags = body ++ [([] : Str)]) (hne : ∀ d ∈ body, d ≠ [])
    (hk : k < (reassemble frags).length) :
    ∀ d ∈ (reassemble frags).take k, d ≠ [] := by
  intro d hd
  have hlen : (reassemble frags).length = body.length + 1 := by
    rw [hes]; simp
  have hkle : k ≤ body.length := by omega
  rw [hes, List.take_append_of_le_length hkle] at hd
  exact hne d (List.take_subset k body hd)

/-- C3: every stream that reaches the streaming phase opens with exactly the
`thread_id` event, continues with `content` events in emission order, and
ends with one terminal `done`, optionally preceded by one `error`. -/
theorem c3_event_stream_shape : ∀ (frags : List Str) (tid msg : Str) (failAt : Option Nat),
    (∀ k, failAt = some k → k < (reassemble frags).length) →
    ∃ cs : List Str,
      (generateEventsRun tid (reassemble frags) failAt msg).1 =
          StreamEvent.threadId tid :: cs.map StreamEvent.content ++ [StreamEvent.done] ∨
      (generateEventsRun tid (reassemble frags) failAt msg).1 =
          StreamEvent.threadId tid :: cs.map StreamEvent.content ++
            [StreamEvent.error msg, StreamEvent.done] := by
  intro frags tid msg failAt hk
  obtain ⟨body, hes, hne⟩ := reassemble_terminal frags
  cases failAt with
  | none =>
    refine ⟨body, Or.inl ?_⟩
    rw [show generateEventsRun tid (reassemble frags) none msg =
      generateEvents tid (reassemble frags) from rfl]
    rw [generateEvents_success frags tid body hes hne]
  | some k =>
    refine ⟨(reassemble frags).take k, Or.inr ?_⟩
    simp only [generateEventsRun, generateEventsFail]
    rw [genLoop_no_terminal _ _ _ (take_of_lt_reassemble_length frags k body hes hne (hk k rfl))]

/-- C3 witness: a concrete turn with a failure at the first delta satisfies
the hypothesis and the shape. -/
theorem c3_event_stream_shape_witness :
    ∃ cs : List Str,
      (generateEventsRun ("t1").toList (reassemble []) (some 0) ("boom").toList).1 =
          StreamEvent.threadId ("t1").toList :: cs.map StreamEvent.content ++ [StreamEvent.done] ∨
      (generateEventsRun ("t1").toList (reassemble []) (some 0) ("boom").toList).1 =
          StreamEvent.threadId ("t1").toList :: cs.map StreamEvent.content ++
            [StreamEvent.error ("boom").toList, StreamEvent.done] :=
  c3_event_stream_shape [] ("t1").toList ("boom").toList (some 0)
    (fun k hk => by cases hk; decide)

/-- C4 counterexample: a turn failing while finalizing (after one content
event) emits `error` then `done`, but the persisted response is the empty
string, not the accumulated text. -/
theorem c4_preservation_counterexample :
    (generateEventsRun ("t1").toList (reassemble [("Hello world. ").toList])
        (some 1) ("boom").toList).1 =
      [StreamEvent.threadId ("t1").toList, StreamEvent.content ("Hello world. ").toList,
       StreamEvent.error ("boom").toList, StreamEvent.done] ∧
    (generateEventsRun ("t1").toList (reassemble [("Hello world. ").toList])
        (some 1) ("boom").toList).2 = [] ∧
    concatStr (contentsOf (generateEventsRun ("t1").toList
        (reassemble [("Hello world. ").toList]) (some 1) ("boom").toList).1) =
      ("Hello world. ").toList ∧
    ("Hello world. ").toList ≠ ([] : Str) := by
  refine ⟨by decide, by decide, by decide, by decide⟩

/-- C4 amended: an exception before the terminal delta yields `error` then
`done`, and the persisted response stays the empty string written at turn
creation (the accumulated text is discarded). -/
theorem c4_amended_error_done_discard : ∀ (frags : List Str) (tid msg : Str) (k : Nat),
    k < (reassemble frags).length →
    (∃ cs : List Str, (generateEventsRun tid (reassemble frags) (some k) msg).1 =
      StreamEvent.threadId tid :: cs.map StreamEvent.content ++
        [StreamEvent.error msg, StreamEvent.done]) ∧
    (generateEventsRun tid (reassemble frags) (some k) msg).2 = [] := by
  intro frags tid msg k hk
  obtain ⟨body, hes, hne⟩ := reassemble_terminal frags
  have hgl := genLoop_no_terminal ((reassemble frags).take k) [] []
    (take_of_lt_reassemble_length frags k body hes hne hk)
  constructor
  · refine ⟨(reassemble frags).take k, ?_⟩
    simp only [generateEventsRun, generateEventsFail]
    rw [hgl]
  · simp only [generateEventsRun, generateEventsFail]
    rw [hgl]

/-- C4 amended witness: the concrete failing turn of the counterexample. -/
theorem c4_amended_witness :
    (∃ cs : List Str, (generateEventsRun ("t1").toList (reassemble [("Hello world. ").toList])
        (some 1) ("boom").toList).1 =
      StreamEvent.threadId ("t1").toList :: cs.map StreamEvent.content ++
        [StreamEvent.error ("boom").toList, StreamEvent.done]) ∧
    (generateEventsRun ("t1").toList (reassemble [("Hello world. ").toList])
        (some 1) ("boom").toList).2 = [] :=
  c4_amended_error_done_discard [("Hello world. ").toList] ("t1").toList ("boom").toList 1
    (by decide)

/-- C5 counterexample: a turn for an unknown user produces no event stream
at all (the raised `HTTPException` becomes an HTTP 500 response). -/
theorem c5_no_stream_counterexample :
    ¬ ∃ evs saved, streamAgentResponse ⟨[], []⟩ ("u1").toList none ("t1").toList [] none
        ("boom").toList = ChatResult.stream evs saved := by
  rintro ⟨evs, saved, h⟩
  simp [streamAgentResponse] at h

/-- C5 amended: an unknown user, or an explicit thread id not owned by the
user, aborts the request with an HTTP 500 error before any event is
emitted. -/
theorem c5_amended_http_error : ∀ (db : Db) (uid newTid t : Str) (frags : List Str)
    (failAt : Option Nat) (msg : Str),
    (db.users.contains uid = false →
      streamAgentResponse db uid (some t) newTid frags failAt msg =
        ChatResult.httpError 500 ("User not found").toList ∧
      streamAgentResponse db uid none newTid frags failAt msg =
        ChatResult.httpError 500 ("User not found").toList) ∧
    (db.users.contains uid = true → db.threads.contains (t, uid) = false →
      streamAgentResponse db uid (some t) newTid frags failAt msg =
        ChatResult.httpError 500 ("Thread not found").toList) := by
  intro db uid newTid t frags failAt msg
  constructor
  · intro h
    have h' : uid ∉ db.users := by simpa using h
    constructor <;> simp [streamAgentResponse, h']
  · intro h1 h2
    have h1' : uid ∈ db.users := by simpa using h1
    have h2' : (t, uid) ∉ db.threads := by simpa using h2
    simp [streamAgentResponse, h1', h2']

/-- C5 amended witness: the two failure paths at concrete stores. -/
theorem c5_amended_witness :
    streamAgentResponse ⟨[], []⟩ ("u1").toList none ("t1").toList [] none ("e").toList =
      ChatResult.httpError 500 ("User not found").toList ∧
    streamAgentResponse ⟨[("u1").toList], []⟩ ("u1").toList (some ("tX").toList)
        ("t1").toList [] none ("e").toList =
      ChatResult.httpError 500 ("Thread not found").toList :=
  ⟨((c5_amended_http_error ⟨[], []⟩ ("u1").toList ("t1").toList ("tX").toList [] none
      ("e").toList).1 (by decide)).2,
   (c5_amended_http_error ⟨[("u1").toList], []⟩ ("u1").toList ("t1").toList ("tX").toList []
      none ("e").toList).2 (by decide) (by decide)⟩

theorem specStep_sim {c : ReState} {s : SpecState} (h : SimRel c s) (f : Str) :
    (processFragment c f).2 = (specStep s f).2 ∧
    SimRel (processFragment c f).1 (specStep s f).1 := by
  obtain ⟨hb, hp, hinv⟩ := h
  cases hfs : c.firstStarted with
  | false =>
    have hbuf : c.buffer = [] := hinv hfs
    rw [hfs] at hp
    simp only [if_neg Bool.false_ne_true] at hp
    unfold processFragment specStep
    rw [hfs, hb, hfs, hp]
    by_cases hpt : preTrigger (c.initialBuffer ++ f) = true
    · simp [hpt, SimRel, hbuf]
    · simp [hpt, SimRel, hbuf]
  | true =>
    rw [hfs] at hp
    simp only [if_pos rfl] at hp
    unfold processFragment specStep
    rw [hfs, hb, hfs, hp]
    by_cases hew : endsWithBoundary (c.buffer ++ f) = true
    · simp [hew, SimRel]
    · simp [hew, SimRel]

theorem specSteps_sim : ∀ (frags : List Str) {c : ReState} {s : SpecState}, SimRel c s →
    (reassembleSteps c frags).1 = (specSteps s frags).1 ∧
    SimRel (reassembleSteps c frags).2 (specSteps s frags).2
  | [], c, s, h => by simpa [reassembleSteps, specSteps] using h
  | f :: fs, c, s, h => by
    obtain ⟨hd, hrel⟩ := specStep_sim h f
    obtain ⟨ih1, ih2⟩ := specSteps_sim fs hrel
    simp only [reassembleSteps, specSteps]
    exact ⟨by rw [hd, ih1], ih2⟩

theorem atEnd_sim {c : ReState} {s : SpecState} (h : SimRel c s) :
    atEnd c = specEnd s := by
  obtain ⟨hb, hp, hinv⟩ := h
  cases hfs : c.firstStarted with
  | false =>
    have hbuf : c.buffer = [] := hinv hfs
    rw [hfs] at hp
    simp only [if_neg Bool.false_ne_true] at hp
    rw [hfs] at hb
    simp [atEnd, specEnd, hbuf, hb]
  | true =>
    rw [hfs] at hp
    simp only [if_pos rfl] at hp
    rw [hfs] at hb
    simp only [atEnd, specEnd, hp, hb]
    by_cases hc : c.buffer = []
    · simp [hc]
    · simp [hc]

/-- C6 counterexample: a response shorter than the threshold with no
terminator is never flushed at end-of-turn; only the terminal empty delta is
emitted, not the pending text. -/
theorem c6_flush_counterexample :
    reassemble [("Hi").toList] = [([] : Str)] ∧
    ([([] : Str)] : List Str) ≠ [("Hi").toList, ([] : Str)] := by
  exact ⟨by decide, by decide⟩

/-- C6 amended: the reassembler implements the single-buffer boundary policy
of the spec with the end-of-turn flush restricted to the post-boundary
buffer: text still pending in the pre-boundary buffer at end-of-turn is
discarded. -/
theorem c6_amended_boundary_policy : ∀ frags : List Str,
    reassemble frags = reassembleAmended frags := by
  intro frags
  have h0 : SimRel initReState ⟨[], false⟩ := by
    refine ⟨rfl, by simp [initReState], fun _ => rfl⟩
  obtain ⟨h1, h2⟩ := specSteps_sim frags h0
  simp only [reassemble, reassembleAmended]
  rw [h1, atEnd_sim h2]

/-- C7 counterexample: a pre-boundary buffer already starting with the
normalized contraction is repaired to a doubled apostrophe, not to the
normalized form the claim states. -/
theorem c7_contraction_counterexample :
    repairPrefix (("'d say yes.").toList) = ("I''d say yes.").toList ∧
    ("I''d say yes.").toList ≠ 'I' :: ("'d say yes.").toList := by
  constructor
  · simp [repairPrefix, startsWith, List.isPrefixOf, replaceAll]
  · decide

/-- C7 amended: the repair table as implemented.  The apologize rule prepends
the two characters of the string of an I and a space to the left-stripped
buffer; the am, can and will rules prepend the character I to the unchanged
buffer; the contraction rules prepend I and rewrite every occurrence of the
uncontracted pattern in the whole buffer (so an already-contracted leading
pattern gains a second apostrophe); and the spec's token-by-token apologize
scenario yields a first delta beginning with the repaired prefix. -/
theorem c7_amended_repair_table : ∀ b : Str,
    ((startsWith (" apologize").toList b = true ∨ startsWith ("apologize").toList b = true) →
      repairPrefix b = ("I ").toList ++ lstrip b) ∧
    ((startsWith (" am").toList b = true ∨ startsWith ("am ").toList b = true) →
      repairPrefix b = 'I' :: b) ∧
    ((startsWith ("'d ").toList b = true ∨ startsWith ("d ").toList b = true) →
      repairPrefix b = 'I' :: replaceAll ("d ").toList ("'d ").toList b) ∧
    ((startsWith ("'ll ").toList b = true ∨ startsWith ("ll ").toList b = true) →
      repairPrefix b = 'I' :: replaceAll ("ll ").toList ("'ll ").toList b) ∧
    ((startsWith ("'m ").toList b = true ∨ startsWith ("m ").toList b = true) →
      repairPrefix b = 'I' :: replaceAll ("m ").toList ("'m ").toList b) ∧
    ((startsWith (" can").toList b = true ∨ startsWith ("can ").toList b = true) →
      repairPrefix b = 'I' :: b) ∧
    ((startsWith (" will").toList b = true ∨ startsWith ("will ").toList b = true) →
      repairPrefix b = 'I' :: b) ∧
    reassemble [(" apolog").toList, ("ize, I ").toList, ("misread").toList] =
      [("I apologize, I misread").toList, ([] : Str)] := by
  intro b
  refine ⟨?_, ?_, ?_, ?_, ?_, ?_, ?_, by decide⟩ <;>
    rintro (h | h) <;>
    · simp only [startsWith] at h
      rw [List.isPrefixOf_iff_prefix] at h
      obtain ⟨t, rfl⟩ := h
      simp [repairPrefix, startsWith, List.isPrefixOf]

/-- C7 amended witness: the will rule at a concrete buffer. -/
theorem c7_amended_witness :
    repairPrefix ((" will be fine.").toList) = 'I' :: (" will be fine.").toList := by
  have h := c7_amended_repair_table ((" will be fine.").toList)
  exact h.2.2.2.2.2.2.1 (Or.inl (by decide))

/-- C9: the repair table leaves a buffer unchanged when none of its rules
fires, so an already-correct prefix is not altered. -/
theorem c9_repair_identity : ∀ b : Str, anyRepairTrigger b = false → repairPrefix b = b := by
  intro b h
  simp only [anyRepairTrigger, Bool.or_eq_false_iff] at h
  obtain ⟨⟨⟨⟨⟨⟨⟨⟨⟨h1, h2⟩, h3⟩, h4⟩, h5⟩, h6⟩, h7⟩, h8⟩, h9⟩, h10⟩ := h
  rw [repairPrefix, if_neg (by simp_all), if_neg (by simp_all), if_neg (by simp_all),
    if_neg (by simp_all), if_neg (by simp_all), if_neg (by simp_all),
    if_neg (by simp_all), if_neg (by simp_all), if_neg (by simp_all),
    if_neg (by simp_all)]

/-- C9 witness: an already-correct prefix from the spec's example. -/
theorem c9_repair_identity_witness :
    anyRepairTrigger (("Inflation rose 3 percent.").toList) = false ∧
    repairPrefix (("Inflation rose 3 percent.").toList) = ("Inflation rose 3 percent.").toList :=
  ⟨by decide, c9_repair_identity (("Inflation rose 3 percent.").toList) (by decide)⟩

/-- C2: the chat path builds the document-search agent without any user id:
its configuration equals `create_agent` called with no `document_user_id`,
its system prompt is exactly the base document prompt (no scope
instruction), its tool is the unbound qdrant tool, and the prompt that WOULD
carry the scope instruction (had the id been passed) differs from it. -/
theorem c2_scope_not_threaded : ∀ uid : Str,
    chatPathAgent false true = createAgent false true none ∧
    (chatPathAgent false true).systemPrompt = documentSystemPromptBase ∧
    (chatPathAgent false true).tools = [ToolName.qdrantSearch] ∧
    (uid ≠ [] → (createAgent false true (some uid)).systemPrompt =
      documentSystemPromptBase ++ scopeInstruction uid) := by
  intro uid
  refine ⟨rfl, ?_, ?_, ?_⟩
  · simp [chatPathAgent, createAgent]
  · simp [chatPathAgent, createAgent]
  · intro h
    simp [createAgent, h]

/-- C2 witness: the scope instruction a propagated id would have added. -/
theorem c2_scope_not_threaded_witness :
    (createAgent false true (some ("userA").toList)).systemPrompt =
      documentSystemPromptBase ++ scopeInstruction ("userA").toList :=
  (c2_scope_not_threaded ("userA").toList).2.2.2 (by decide)

/-- C8 counterexample: an exception during the web tool's HTTP call yields
the two hardcoded mock results, not an empty result set. -/
theorem c8_fail_open_counterexample :
    webSearchTool (some ("key").toList) 5 HttpOutcome.exn =
      Except.ok ⟨webMockResults, 2⟩ ∧
    webMockResults ≠ [] := by
  constructor
  · rfl
  · decide

/-- C8 amended: the document tool fails open with an empty result set; the
web tool, when a key is configured, never propagates an error from the HTTP
call but recovers with the two mock results; with no key configured it
propagates a `ValueError`. -/
theorem c8_amended_fail_modes : ∀ (k : Str) (n : Nat) (http : HttpOutcome)
    (coll : List QPoint) (uid : Option Str),
    k ≠ [] →
    (∃ resp, webSearchTool (some k) n http = Except.ok resp) ∧
    webSearchTool (some k) n HttpOutcome.exn = Except.ok ⟨webMockResults, 2⟩ ∧
    webSearchTool none n http = Except.error searchKeyErrorMsg ∧
    qdrantSearchTool coll n uid true = ⟨[], 0⟩ := by
  intro k n http coll uid hk
  have hcond : ¬((some k : Option Str) = none ∨ (some k : Option Str) = some []) := by
    simp [hk]
  refine ⟨?_, ?_, ?_, rfl⟩
  · cases http with
    | ok status rs =>
      by_cases hs : status = 200
      · refine ⟨⟨rs, n⟩, ?_⟩
        simp only [webSearchTool]
        rw [if_neg hcond, if_pos hs]
      · refine ⟨⟨webMockResults, 2⟩, ?_⟩
        simp only [webSearchTool]
        rw [if_neg hcond, if_neg hs]
    | exn =>
      refine ⟨⟨webMockResults, 2⟩, ?_⟩
      simp only [webSearchTool]
      rw [if_neg hcond]
  · simp only [webSearchTool]
    rw [if_neg hcond]
  · rfl

/-- C8 amended witness: a concrete key, outcome and collection. -/
theorem c8_amended_witness :
    (∃ resp, webSearchTool (some ("key").toList) 5 HttpOutcome.exn = Except.ok resp) ∧
    webSearchTool (some ("key").toList) 5 HttpOutcome.exn = Except.ok ⟨webMockResults, 2⟩ ∧
    webSearchTool none 5 HttpOutcome.exn = Except.error searchKeyErrorMsg ∧
    qdrantSearchTool [] 5 none true = ⟨[], 0⟩ :=
  c8_amended_fail_modes ("key").toList 5 HttpOutcome.exn [] none (by decide)

/-- C10: a falsy (empty or missing) `user_id` yields no filter at all, a
non-dict filter argument is dropped, and the unfiltered vector search is the
plain top-`n` of the collection irrespective of the points' stored user ids;
concretely, an empty `user_id` returns another user's chunk. -/
theorem c10_unscoped_search : ∀ (coll : List QPoint) (n : Nat),
    qdrantToolFilters (some []) = none ∧
    qdrantToolFilters none = none ∧
    searchQdrantWithFilters coll (some FilterArg.notDict) n = qdrantClientSearch coll none n ∧
    searchQdrantWithFilters coll none n = qdrantClientSearch coll none n ∧
    qdrantClientSearch coll none n = coll.take n ∧
    qdrantSearchTool coll n (some []) false = qdrantSearchTool coll n none false ∧
    qdrantSearchTool
        [⟨("doc1").toList, ("page 3: revenue table").toList, ("userB").toList, ("b.pdf").toList⟩]
        5 (some []) false =
      ⟨[("page 3: revenue table").toList], 1⟩ := by
  intro coll n
  exact ⟨rfl, rfl, rfl, rfl, rfl, rfl, by decide⟩

end EquityBot
